import Mathlib

/-!
# Verification of the log-alerting / port-negotiation tool

Shallow embedding of the Go program (alert cooldown state machine, log
classifier, webhook dispatcher, port negotiator, and the supervisor's
termination paths), with theorems checking the specification's claims.

Conventions of the embedding:
* Go `time.Time` / `time.Duration` are modelled as `Int` nanoseconds
  (the relevant constants fit in `int64`, so wraparound never occurs on
  the values considered here); `time.Now()` is an explicit `now` argument.
* Go maps are modelled as total/optional functions (`String → Option _`,
  with `map[string]int`'s zero-default modelled as `String → Nat`);
  the YAML document is an association list.
* Compiled regular expressions are modelled as their match predicate
  plus their source text (`MatchString`, `String()`); the claims under
  study depend only on first-match order, not on regex internals.
* OS effects (TCP bind, HTTP transport) are injected predicates.
-/

/-- Nanoseconds in a minute (`time.Minute`). -/
def minuteNs : Int := 60 * 1000000000

/-- Nanoseconds in an hour (`time.Hour`). -/
def hourNs : Int := 3600 * 1000000000

/-- One entry of the `patterns` array of the run configuration. -/
structure PatternConfig where
  Pattern : String
  TimeoutMinutes : Int
deriving DecidableEq

/-- The mutable state of the Go `AlertManager` (the mutex is irrelevant in
the single-caller embedding). `sentAlerts` and `suppressionCounts` are the
two Go maps; a missing `suppressionCounts` entry reads as 0, which the
total function `String → Nat` captures (the Go field is `int`, but it is
only ever set to 0 or incremented, so `Nat` is faithful). -/
structure AlertManager where
  sentAlerts : String → Option Int
  suppressionCounts : String → Nat
  defaultCooldown : Int
  patternCooldowns : String → Option Int

/-- `NewAlertManager`: both maps start empty. -/
def NewAlertManager (defaultCooldown : Int) (patternCooldowns : String → Option Int) :
    AlertManager :=
  { sentAlerts := fun _ => none
    suppressionCounts := fun _ => 0
    defaultCooldown := defaultCooldown
    patternCooldowns := patternCooldowns }

/-- Cooldown resolution (lines 67–70 of the source): the pattern-specific
cooldown if present in the map, else the process default. -/
def cooldownFor (am : AlertManager) (pattern : String) : Int :=
  match am.patternCooldowns pattern with
  | some c => c
  | none => am.defaultCooldown

/-- The send branch of `ShouldSendAlert` (lines 79–82): capture the current
suppression count, record `lastSentAt = now`, reset the count to 0. -/
def sendBranch (am : AlertManager) (now : Int) (key : String) :
    (Bool × Nat) × AlertManager :=
  let suppressionCount := am.suppressionCounts key
  ((true, suppressionCount),
   { am with
      sentAlerts := Function.update am.sentAlerts key (some now)
      suppressionCounts := Function.update am.suppressionCounts key 0 })

/-- `(*AlertManager).ShouldSendAlert`, with `time.Now()` as the explicit
argument `now`.  If a previous send is recorded and `now - lastSent <
cooldown`, the count is incremented and `(false, incremented)` returned;
otherwise the send branch runs. -/
def ShouldSendAlert (am : AlertManager) (now : Int) (pattern : String) :
    (Bool × Nat) × AlertManager :=
  let key := pattern
  let cooldown := cooldownFor am pattern
  match am.sentAlerts key with
  | some lastSent =>
      if now - lastSent < cooldown then
        let incremented := am.suppressionCounts key + 1
        ((false, incremented),
         { am with suppressionCounts := Function.update am.suppressionCounts key incremented })
      else
        sendBranch am now key
  | none => sendBranch am now key

/-- `(*AlertManager).GetSuppressionCount`: a read of the map.  The state is
returned alongside the value to make the absence of mutation statable. -/
def GetSuppressionCount (am : AlertManager) (pattern : String) : Nat × AlertManager :=
  (am.suppressionCounts pattern, am)

/-- Fold a sequence of `(now, pattern)` calls through `ShouldSendAlert`,
keeping only the final state. -/
def runCalls (am : AlertManager) (calls : List (Int × String)) : AlertManager :=
  calls.foldl (fun s c => (ShouldSendAlert s c.1 c.2).2) am

/-- The `(send, count)` results of a sequence of `ShouldSendAlert` calls. -/
def sendResults (am : AlertManager) : List (Int × String) → List (Bool × Nat)
  | [] => []
  | c :: rest =>
      let r := ShouldSendAlert am c.1 c.2
      r.1 :: sendResults r.2 rest

/-- The states traversed by a sequence of calls (initial state included). -/
def stateTrace (am : AlertManager) : List (Int × String) → List AlertManager
  | [] => [am]
  | c :: rest => am :: stateTrace (ShouldSendAlert am c.1 c.2).2 rest

/-- Number of calls in a sequence that actually send. -/
def countSends (am : AlertManager) (calls : List (Int × String)) : Nat :=
  (sendResults am calls).countP (fun r => r.1)

/-- The cooldown map built by `main` (lines 271–278): a configured
`timeoutMinutes` of 0 becomes `24 * time.Hour * 365 * 100` ("effectively
never"); otherwise the configured number of minutes.  Later entries of the
patterns array overwrite earlier ones with the same pattern text. -/
def effectiveTimeout (pc : PatternConfig) : Int :=
  if pc.TimeoutMinutes = 0 then 24 * hourNs * 365 * 100 else pc.TimeoutMinutes * minuteNs

/-- The `patternCooldowns` map after `main`'s construction loop. -/
def buildPatternCooldowns (patterns : List PatternConfig) : String → Option Int :=
  patterns.foldl (fun m pc => Function.update m pc.Pattern (some (effectiveTimeout pc)))
    (fun _ => none)

/-- A compiled pattern: its source text (`String()`) and match predicate
(`MatchString`, a regular-expression search, not anchored). -/
structure Regexp where
  source : String
  MatchString : String → Bool

/-- `searchLog`: first pattern in order whose `MatchString` accepts the
line wins; `(false, "")` when none does. -/
def searchLog (log : String) : List Regexp → Bool × String
  | [] => (false, "")
  | p :: rest => if p.MatchString log then (true, p.source) else searchLog log rest

/-- The HTTP request assembled by the dispatcher.  `json.Marshal` of a
`map[string]string` is modelled as the object's field list. -/
structure HttpRequest where
  method : String
  url : String
  contentType : Option String
  bodyFields : List (String × String)
deriving DecidableEq

/-- Environment for one dispatch: whether `http.NewRequest` fails, and the
transport (`client.Do`): `none` is a transport error, `some s` a response
with status code `s`. -/
structure HttpEnv where
  newRequestErr : Option String
  transport : HttpRequest → Option Nat

/-- Observable outcome of one dispatch: the requests handed to the
transport, and the lines printed to stderr (`fmt.Fprintf(os.Stderr, ...)`)
and to stdout (`fmt.Println`). -/
structure DispatchOutcome where
  requests : List HttpRequest
  stderrLines : List String
  stdoutLines : List String
deriving DecidableEq

/-- `sendGoogleChatAlert`.  `json.Marshal` of a map of strings cannot
fail, so that error branch is dead; the remaining paths: `NewRequest`
error → stderr and return; transport error → stderr and return; response
with status > 299 → a notice on stdout; otherwise silent. -/
def sendGoogleChatAlert (env : HttpEnv) (webhookURL msgPref log : String)
    (suppressionCount : Nat) : DispatchOutcome :=
  let msgContent := msgPref ++ "\n" ++ log
  let msgContent :=
    if suppressionCount > 0 then
      msgContent ++ "\nSuppressed " ++ toString suppressionCount ++ " duplicate(s)"
    else msgContent
  match env.newRequestErr with
  | some e =>
      { requests := [], stderrLines := ["Error creating request: " ++ e], stdoutLines := [] }
  | none =>
      let req : HttpRequest :=
        { method := "POST", url := webhookURL, contentType := some "application/json"
          bodyFields := [("text", msgContent)] }
      match env.transport req with
      | none =>
          { requests := [req], stderrLines := ["Error sending alert"], stdoutLines := [] }
      | some status =>
          if status > 299 then
            { requests := [req], stderrLines := []
              stdoutLines := ["Alert sent to Google Chat, response status: " ++ toString status] }
          else
            { requests := [req], stderrLines := [], stdoutLines := [] }

/-- One iteration of `main`'s scan loop, after the line has been appended
to the log file: classify, decide, conditionally dispatch (lines 326–330).
Returns the new alert state and the dispatches performed. -/
def processLine (env : HttpEnv) (webhookURL msgPref : String) (patterns : List Regexp)
    (am : AlertManager) (now : Int) (logLine : String) :
    AlertManager × List DispatchOutcome :=
  let sr := searchLog logLine patterns
  if sr.1 then
    let r := ShouldSendAlert am now sr.2
    if r.1.1 then
      (r.2, [sendGoogleChatAlert env webhookURL msgPref logLine r.1.2])
    else (r.2, [])
  else (am, [])

/-- `findAvailablePort`: probe `port, port+1, ...` until a TCP bind
succeeds (`freeBind`), releasing each listener immediately.  The source
loop is unbounded (spec §9); `fuel` bounds the recursion, `none` meaning
the loop would still be running after `fuel` probes. -/
def findAvailablePort (freeBind : Int → Bool) : Nat → Int → Option Int
  | 0, _ => none
  | fuel + 1, port =>
      if freeBind port then some port else findAvailablePort freeBind fuel (port + 1)

/-- Go `strings.TrimSpace` (ASCII whitespace suffices for the inputs at
hand). -/
def TrimSpace (s : String) : String :=
  ⟨((s.data.dropWhile Char.isWhitespace).reverse.dropWhile Char.isWhitespace).reverse⟩

/-- Split a character list at every occurrence of `sep`, keeping empty
segments, together with the segment still open on the left. -/
def splitCharAux (sep : Char) : List Char → List Char × List (List Char)
  | [] => ([], [])
  | c :: rest =>
      let r := splitCharAux sep rest
      if c = sep then ([], r.1 :: r.2) else (c :: r.1, r.2)

/-- Go `strings.Split(s, sep)` for a one-character separator (the source
only ever splits on `","`).  `splitOnChar sep ""` is `[""]`, as in Go. -/
def splitOnChar (sep : Char) (s : String) : List String :=
  let r := splitCharAux sep s.data
  (⟨r.1⟩ : String) :: r.2.map (fun l => (⟨l⟩ : String))

/-- Go `strings.Join(parts, sep)`. -/
def joinWith (sep : String) : List String → String
  | [] => ""
  | [s] => s
  | s :: rest => s ++ sep ++ joinWith sep rest

/-- Decimal value of a digit list. -/
def digitsToNat (l : List Char) : Nat :=
  l.foldl (fun acc c => acc * 10 + (c.toNat - ('0').toNat)) 0

/-- Go `strconv.Atoi`: optional sign, then one or more decimal digits
(`int64` overflow is ignored; the ports at hand are small). -/
def Atoi (s : String) : Option Int :=
  match s.data with
  | [] => none
  | c :: rest =>
      let signDigits : Bool × List Char :=
        if c = '-' then (true, rest)
        else if c = '+' then (false, rest)
        else (false, c :: rest)
      if signDigits.2.isEmpty then none
      else if signDigits.2.all Char.isDigit then
        some (if signDigits.1 then -(digitsToNat signDigits.2 : Int)
              else (digitsToNat signDigits.2 : Int))
      else none

/-- The body of `updateConfig`'s inner loop for one list element: trim,
parse, negotiate, print back (`strconv.Itoa`). -/
def negotiateOne (freeBind : Int → Bool) (fuel : Nat) (portStr : String) : Option String :=
  match Atoi (TrimSpace portStr) with
  | none => none
  | some port =>
      match findAvailablePort freeBind fuel port with
      | none => none
      | some newPort => some (toString newPort)

/-- Run `f` left to right, stopping at the first failure (the Go loops
return the error immediately). -/
def mapOption (f : α → Option β) : List α → Option (List β)
  | [] => some []
  | a :: rest =>
      match f a with
      | none => none
      | some b =>
          match mapOption f rest with
          | none => none
          | some bs => some (b :: bs)

/-- `updateConfig`'s treatment of one key's value: split on `","`, handle
each element in order, join with `", "`. -/
def negotiatePorts (freeBind : Int → Bool) (fuel : Nat) (portList : String) : Option String :=
  match mapOption (negotiateOne freeBind fuel) (splitOnChar ',' portList) with
  | none => none
  | some newPortList => some (joinWith ", " newPortList)

/-- A YAML value as far as the program distinguishes them: a string, or
anything else (numbers, sequences, maps...), tagged so that distinct
non-string values stay distinct in the model. -/
inductive YamlValue
  | str (s : String)
  | other (tag : Nat)
deriving DecidableEq

/-- The parsed child configuration document: an association list standing
for Go's `map[string]interface{}` (keys distinct). -/
abbrev YamlDoc := List (String × YamlValue)

/-- First value under `key`, if any. -/
def getValue : YamlDoc → String → Option YamlValue
  | [], _ => none
  | kv :: rest, key => if kv.1 = key then some kv.2 else getValue rest key

/-- Whether `sub` occurs inside `s` (Go `strings.Contains`). -/
def strContains (s sub : String) : Bool :=
  (List.range (s.length + 1)).any fun i => sub.data.isPrefixOf (s.data.drop i)

/-- `extractPorts` (file reading and parsing aside): keep every key whose
name contains "port" (or "ports") and whose value is a string — the value
is only type-asserted to `string`, its contents are not inspected here. -/
def extractPorts (config : YamlDoc) : List (String × String) :=
  config.filterMap fun kv =>
    if strContains kv.1 "port" || strContains kv.1 "ports" then
      match kv.2 with
      | YamlValue.str s => some (kv.1, s)
      | YamlValue.other _ => none
    else none

/-- Go `config[key] = v` on the association-list model: replace the
entry when the key is present, append otherwise. -/
def mapSet (config : YamlDoc) (key : String) (v : YamlValue) : YamlDoc :=
  if config.any (fun kv => kv.1 = key) then
    config.map (fun kv => if kv.1 = key then (kv.1, v) else kv)
  else config ++ [(key, v)]

/-- `updateConfig`'s main loop (the file I/O around it aside): negotiate
each extracted key's list and write the joined result back into the
document; any per-element failure aborts the whole update (the Go code
returns the error, which `main` turns into `log.Fatalf`). -/
def updateConfig (freeBind : Int → Bool) (fuel : Nat) (config : YamlDoc) :
    List (String × String) → Option YamlDoc
  | [] => some config
  | (key, portList) :: rest =>
      match negotiatePorts freeBind fuel portList with
      | none => none
      | some newPortStr => updateConfig freeBind fuel (mapSet config key (YamlValue.str newPortStr)) rest

/-- The whole port phase of `main` (lines 286–294): extract, then update;
`none` makes `main` abort via `log.Fatalf`. -/
def portPhase (freeBind : Int → Bool) (fuel : Nat) (config : YamlDoc) : Option YamlDoc :=
  updateConfig freeBind fuel config (extractPorts config)

/-- How a run of `main` ends. -/
inductive ExitKind
  | normal
  | fatal (msg : String)
deriving DecidableEq

/-- Environment of the phase of `main` after `updateConfig` succeeded
(the temporary file exists and `defer os.Remove` is registered): which of
the subsequent operations succeed. -/
structure RunEnv where
  buildOk : Bool
  stdoutPipeOk : Bool
  stderrPipeOk : Bool
  startOk : Bool
  scanErr : Bool
  waitOk : Bool
deriving DecidableEq

/-- End-of-run observation: how the process exited, whether the deferred
`os.Remove(tempConfigFile)` ran, and the stderr lines of this phase. -/
structure RunEnd where
  exitKind : ExitKind
  tempFileRemoved : Bool
  stderrLines : List String
deriving DecidableEq

/-- `main` from line 298 to the end.  Each failure exits through
`log.Fatalf`, i.e. `os.Exit(1)`: the Go runtime terminates immediately
and deferred functions are NOT run, so the deferred removal of the
temporary configuration file happens only on the normal return path.
A scanner error is only printed; the child is still waited on. -/
def runChildPhase (env : RunEnv) : RunEnd :=
  if !env.buildOk then
    { exitKind := ExitKind.fatal "Build failed", tempFileRemoved := false, stderrLines := [] }
  else if !env.stdoutPipeOk then
    { exitKind := ExitKind.fatal "Error creating stdout pipe", tempFileRemoved := false
      stderrLines := [] }
  else if !env.stderrPipeOk then
    { exitKind := ExitKind.fatal "Error creating stderr pipe", tempFileRemoved := false
      stderrLines := [] }
  else if !env.startOk then
    { exitKind := ExitKind.fatal "Error starting cdk-erigon", tempFileRemoved := false
      stderrLines := [] }
  else
    let scanMsgs := if env.scanErr then ["Error reading log output"] else []
    if !env.waitOk then
      { exitKind := ExitKind.fatal "cdk-erigon finished with error", tempFileRemoved := false
        stderrLines := scanMsgs }
    else
      { exitKind := ExitKind.normal, tempFileRemoved := true, stderrLines := scanMsgs }

/-- Every send time recorded in the state is at most `B`. -/
def SentBounded (am : AlertManager) (B : Int) : Prop :=
  ∀ p t, am.sentAlerts p = some t → t ≤ B

/-- Send times recorded between two adjacent states of a trace never
decrease (for the key `P`). -/
def StepMono (P : String) (s1 s2 : AlertManager) : Prop :=
  ∀ t t', s1.sentAlerts P = some t → s2.sentAlerts P = some t' → t ≤ t'

/-! ## Step lemmas for the alert manager -/

/-- Suppression step: a recorded send within the cooldown increments the
count and does not send. -/
theorem shouldSend_suppress (am : AlertManager) (now : Int) (P : String) (t0 : Int)
    (h1 : am.sentAlerts P = some t0) (h2 : now - t0 < cooldownFor am P) :
    ShouldSendAlert am now P =
      ((false, am.suppressionCounts P + 1),
       { am with suppressionCounts :=
          Function.update am.suppressionCounts P (am.suppressionCounts P + 1) }) := by
  simp [ShouldSendAlert, h1, h2]

/-- Send step, first-ever match of the key. -/
theorem shouldSend_first (am : AlertManager) (now : Int) (P : String)
    (h1 : am.sentAlerts P = none) :
    ShouldSendAlert am now P =
      ((true, am.suppressionCounts P),
       { am with
          sentAlerts := Function.update am.sentAlerts P (some now)
          suppressionCounts := Function.update am.suppressionCounts P 0 }) := by
  simp [ShouldSendAlert, sendBranch, h1]

/-- Send step, cooldown elapsed. -/
theorem shouldSend_elapsed (am : AlertManager) (now : Int) (P : String) (t0 : Int)
    (h1 : am.sentAlerts P = some t0) (h2 : ¬ now - t0 < cooldownFor am P) :
    ShouldSendAlert am now P =
      ((true, am.suppressionCounts P),
       { am with
          sentAlerts := Function.update am.sentAlerts P (some now)
          suppressionCounts := Function.update am.suppressionCounts P 0 }) := by
  simp [ShouldSendAlert, sendBranch, h1, h2]

/-- Unfolding lemma: `runCalls` over a cons. -/
theorem runCalls_cons (am : AlertManager) (c : Int × String) (calls : List (Int × String)) :
    runCalls am (c :: calls) = runCalls (ShouldSendAlert am c.1 c.2).2 calls := rfl

/-- A run of matches of key `P`, all within the cooldown of the recorded
send at `t0`: every call is suppressed, the results count up from the
current count, and the final state differs only in the count of `P`,
which has grown by the number of matches. -/
theorem suppressedRun (P : String) (t0 C : Int) (ts : List Int) (am : AlertManager)
    (h1 : am.sentAlerts P = some t0) (h2 : cooldownFor am P = C)
    (h3 : ∀ s ∈ ts, s - t0 < C) :
    sendResults am (ts.map (fun s => (s, P))) =
      (List.range ts.length).map (fun i => (false, am.suppressionCounts P + i + 1)) ∧
    runCalls am (ts.map (fun s => (s, P))) =
      { am with suppressionCounts :=
          Function.update am.suppressionCounts P (am.suppressionCounts P + ts.length) } := by
  induction ts generalizing am with
  | nil =>
      simp [sendResults, runCalls, Function.update_eq_self]
  | cons s rest ih =>
      have hs : s - t0 < cooldownFor am P := h2 ▸ h3 s (by simp)
      have hstep := shouldSend_suppress am s P t0 h1 hs
      set am' : AlertManager :=
        { am with suppressionCounts :=
            Function.update am.suppressionCounts P (am.suppressionCounts P + 1) } with ham'
      have h1' : am'.sentAlerts P = some t0 := h1
      have h2' : cooldownFor am' P = C := h2
      have h3' : ∀ x ∈ rest, x - t0 < C := fun x hx => h3 x (by simp [hx])
      have hcnt : am'.suppressionCounts P = am.suppressionCounts P + 1 := by
        simp [ham', Function.update_same]
      obtain ⟨ihres, ihrun⟩ := ih am' h1' h2' h3'
      have hstep2 : (ShouldSendAlert am s P).2 = am' := by rw [hstep]
      constructor
      · simp only [List.map_cons, sendResults, hstep, ihres, Function.update_same,
          List.length_cons]
        rw [List.range_succ_eq_map, List.map_cons, List.map_map]
        refine congrArg₂ _ (by simp) ?_
        apply List.map_congr_left
        intro i _
        simp only [Function.comp]
        refine congrArg₂ _ rfl ?_
        omega
      · rw [List.map_cons]
        show runCalls (ShouldSendAlert am s P).2 (rest.map (fun s => (s, P))) = _
        rw [hstep2, ihrun, ham']
        simp only [Function.update_same, List.length_cons]
        rw [Function.update_idem]
        have harith : am.suppressionCounts P + 1 + rest.length =
            am.suppressionCounts P + (rest.length + 1) := by omega
        rw [harith]

/-- Claim C1: one-step characterization of `ShouldSendAlert` — it sends
exactly when no send is recorded or the cooldown has elapsed, reporting
and resetting the accumulated count, and otherwise increments the count
leaving `lastSentAt` unchanged — together with its consequence: for a
fresh manager, N matches within a span shorter than the cooldown of the
first fire exactly once (reporting 0), and a later match at or past the
cooldown fires again reporting N-1. -/
theorem C1_shouldSendAlert_correct (am : AlertManager) (P : String) (T : Int) :
    (((ShouldSendAlert am T P).1.1 = true ↔
        am.sentAlerts P = none ∨
          ∃ t0, am.sentAlerts P = some t0 ∧ T - t0 ≥ cooldownFor am P) ∧
     ((ShouldSendAlert am T P).1.1 = true →
        (ShouldSendAlert am T P).1.2 = am.suppressionCounts P ∧
        (ShouldSendAlert am T P).2.sentAlerts P = some T ∧
        (ShouldSendAlert am T P).2.suppressionCounts P = 0) ∧
     ((ShouldSendAlert am T P).1.1 = false →
        (ShouldSendAlert am T P).1.2 = am.suppressionCounts P + 1 ∧
        (ShouldSendAlert am T P).2.suppressionCounts P = am.suppressionCounts P + 1 ∧
        (ShouldSendAlert am T P).2.sentAlerts P = am.sentAlerts P)) ∧
    (∀ (d : Int) (pc : String → Option Int) (t0 : Int) (ts : List Int) (t : Int),
      (∀ s ∈ ts, s - t0 < cooldownFor (NewAlertManager d pc) P) →
      t - t0 ≥ cooldownFor (NewAlertManager d pc) P →
      countSends (NewAlertManager d pc) ((t0 :: ts).map (fun s => (s, P))) = 1 ∧
      sendResults (NewAlertManager d pc) ((t0 :: ts).map (fun s => (s, P))) =
        (true, 0) :: (List.range ts.length).map (fun i => (false, i + 1)) ∧
      (ShouldSendAlert
          (runCalls (NewAlertManager d pc) ((t0 :: ts).map (fun s => (s, P)))) t P).1 =
        (true, ts.length)) := by
  constructor
  · refine ⟨?_, ?_, ?_⟩
    · constructor
      · intro hsend
        cases h1 : am.sentAlerts P with
        | none => exact Or.inl rfl
        | some t0 =>
            refine Or.inr ⟨t0, rfl, ?_⟩
            by_contra hlt
            rw [shouldSend_suppress am T P t0 h1 (by omega)] at hsend
            simp at hsend
      · rintro (h1 | ⟨t0, h1, hge⟩)
        · rw [shouldSend_first am T P h1]
        · rw [shouldSend_elapsed am T P t0 h1 (by omega)]
    · intro hsend
      cases h1 : am.sentAlerts P with
      | none =>
          rw [shouldSend_first am T P h1]
          simp [Function.update_same]
      | some t0 =>
          by_cases hlt : T - t0 < cooldownFor am P
          · rw [shouldSend_suppress am T P t0 h1 hlt] at hsend
            simp at hsend
          · rw [shouldSend_elapsed am T P t0 h1 hlt]
            simp [Function.update_same]
    · intro hsend
      cases h1 : am.sentAlerts P with
      | none =>
          rw [shouldSend_first am T P h1] at hsend
          simp at hsend
      | some t0 =>
          by_cases hlt : T - t0 < cooldownFor am P
          · rw [shouldSend_suppress am T P t0 h1 hlt]
            simp [Function.update_same, h1]
          · rw [shouldSend_elapsed am T P t0 h1 hlt] at hsend
            simp at hsend
  · intro d pc t0 ts t hts ht
    set am0 := NewAlertManager d pc with ham0
    have h1 : am0.sentAlerts P = none := rfl
    have hstep := shouldSend_first am0 t0 P h1
    set am1 : AlertManager :=
      { am0 with
         sentAlerts := Function.update am0.sentAlerts P (some t0)
         suppressionCounts := Function.update am0.suppressionCounts P 0 } with ham1
    have h1' : am1.sentAlerts P = some t0 := by
      simp [ham1, Function.update_same]
    have h2' : cooldownFor am1 P = cooldownFor am0 P := rfl
    have hcnt1 : am1.suppressionCounts P = 0 := by
      simp [ham1, Function.update_same]
    have hts' : ∀ s ∈ ts, s - t0 < cooldownFor am1 P := by
      intro s hs; rw [h2']; exact hts s hs
    obtain ⟨hres, hrun⟩ := suppressedRun P t0 (cooldownFor am1 P) ts am1 h1' rfl hts'
    have hres' : sendResults am0 ((t0 :: ts).map (fun s => (s, P))) =
        (true, 0) :: (List.range ts.length).map (fun i => (false, i + 1)) := by
      simp only [List.map_cons, sendResults, hstep]
      refine congrArg₂ _ ?_ ?_
      · simp [ham0, NewAlertManager]
      · rw [hres, hcnt1]
        simp
    refine ⟨?_, hres', ?_⟩
    · rw [countSends, hres']
      simp [List.countP_eq_zero]
    · have hrunfull : runCalls am0 ((t0 :: ts).map (fun s => (s, P))) =
          { am1 with suppressionCounts :=
              Function.update am1.suppressionCounts P (am1.suppressionCounts P + ts.length) } := by
        simp only [List.map_cons, runCalls, List.foldl_cons, hstep]
        exact hrun
      rw [hrunfull]
      set amN : AlertManager :=
        { am1 with suppressionCounts :=
            Function.update am1.suppressionCounts P (am1.suppressionCounts P + ts.length) }
        with hamN
      have hN1 : amN.sentAlerts P = some t0 := h1'
      have hN2 : cooldownFor amN P = cooldownFor am0 P := rfl
      rw [shouldSend_elapsed amN t P t0 hN1 (by rw [hN2]; omega)]
      simp [hamN, Function.update_same, hcnt1]

/-- Witness for C1 at a concrete input: pattern "a", default cooldown 10,
three matches at times 0, 3, 5 and a later one at 12. -/
theorem C1_shouldSendAlert_correct_witness :
    countSends (NewAlertManager 10 (fun _ => none))
        (([0, 3, 5] : List Int).map (fun s => (s, "a"))) = 1 ∧
    (ShouldSendAlert
        (runCalls (NewAlertManager 10 (fun _ => none))
          (([0, 3, 5] : List Int).map (fun s => (s, "a")))) 12 "a").1 = (true, 2) := by
  have h := (C1_shouldSendAlert_correct (NewAlertManager 10 (fun _ => none)) "a" 0).2
    10 (fun _ => none) 0 [3, 5] 12 (by decide) (by decide)
  exact ⟨h.1, h.2.2⟩

/-! ## Invariants (claim C4) -/

/-- After one call, the recorded send time for any key is either unchanged
or equal to the call time. -/
theorem sentAlerts_after_step (am : AlertManager) (now : Int) (q P : String) :
    (ShouldSendAlert am now q).2.sentAlerts P = am.sentAlerts P ∨
    (ShouldSendAlert am now q).2.sentAlerts P = some now := by
  cases h : am.sentAlerts q with
  | none =>
      rw [shouldSend_first am now q h]
      simp only [Function.update_apply]
      by_cases hq : P = q
      · right; simp [hq]
      · left; simp [hq]
  | some t0 =>
      by_cases hlt : now - t0 < cooldownFor am q
      · rw [shouldSend_suppress am now q t0 h hlt]
        exact Or.inl rfl
      · rw [shouldSend_elapsed am now q t0 h hlt]
        simp only [Function.update_apply]
        by_cases hq : P = q
        · right; simp [hq]
        · left; simp [hq]

/-- The head of a state trace is the initial state. -/
theorem stateTrace_head (am : AlertManager) (calls : List (Int × String)) :
    (stateTrace am calls).head? = some am := by
  cases calls <;> rfl

/-- Along any call sequence with non-decreasing times, starting from a
state whose recorded times are below every call time, the recorded send
time of each key is monotone between adjacent states. -/
theorem trace_mono (P : String) (calls : List (Int × String)) (am : AlertManager)
    (hb : ∀ c ∈ calls, SentBounded am c.1)
    (hs : (calls.map Prod.fst).Pairwise (· ≤ ·)) :
    (stateTrace am calls).Chain' (StepMono P) := by
  induction calls generalizing am with
  | nil => simp [stateTrace]
  | cons c rest ih =>
      rw [List.map_cons, List.pairwise_cons] at hs
      show List.Chain' (StepMono P) (am :: stateTrace (ShouldSendAlert am c.1 c.2).2 rest)
      rw [List.chain'_cons']
      constructor
      · intro h hh
        rw [stateTrace_head] at hh
        cases hh
        intro t t' h1 h2
        rcases sentAlerts_after_step am c.1 c.2 P with hcase | hcase
        · rw [hcase, h1] at h2
          cases h2
          exact le_refl t
        · rw [hcase] at h2
          cases h2
          exact hb c (by simp) P t h1
      · apply ih
        · intro c' hc' p t hpt
          rcases sentAlerts_after_step am c.1 c.2 p with hcase | hcase
          · rw [hcase] at hpt
            exact hb c' (by simp [hc']) p t hpt
          · rw [hcase] at hpt
            cases hpt
            exact hs.1 c'.1 (List.mem_map_of_mem Prod.fst hc')
        · exact hs.2

/-- Claim C4: per-key invariants of the alert state.  One call of
`ShouldSendAlert`: a sending call resets the called key's count to 0; a
non-sending call increments it by exactly 1 (hence never resets it); keys
other than the called one are untouched; the recorded send time never
decreases when the call time is no earlier than the recorded one.  Along
any call sequence with non-decreasing times from a fresh manager,
`lastSentAt` is monotone between adjacent states.  `GetSuppressionCount`
returns the current count and leaves the state unchanged. -/
theorem C4_alert_state_invariants (am : AlertManager) (now : Int) (q P : String) :
    ((ShouldSendAlert am now q).1.1 = true →
        (ShouldSendAlert am now q).2.suppressionCounts q = 0) ∧
    ((ShouldSendAlert am now q).1.1 = false →
        (ShouldSendAlert am now q).2.suppressionCounts q = am.suppressionCounts q + 1 ∧
        (ShouldSendAlert am now q).2.suppressionCounts q ≠ 0) ∧
    (q ≠ P →
        (ShouldSendAlert am now q).2.suppressionCounts P = am.suppressionCounts P ∧
        (ShouldSendAlert am now q).2.sentAlerts P = am.sentAlerts P) ∧
    (∀ t, am.sentAlerts P = some t → t ≤ now →
        ∀ t', (ShouldSendAlert am now q).2.sentAlerts P = some t' → t ≤ t') ∧
    ((GetSuppressionCount am P).1 = am.suppressionCounts P ∧
     (GetSuppressionCount am P).2 = am) ∧
    (∀ (d : Int) (pc : String → Option Int) (calls : List (Int × String)),
        (calls.map Prod.fst).Pairwise (· ≤ ·) →
        (stateTrace (NewAlertManager d pc) calls).Chain' (StepMono P)) := by
  have hsplit :
      ∀ P', (ShouldSendAlert am now q).2.suppressionCounts P' =
        Function.update am.suppressionCounts q
          (if (ShouldSendAlert am now q).1.1 then 0 else am.suppressionCounts q + 1) P' := by
    intro P'
    cases h : am.sentAlerts q with
    | none => rw [shouldSend_first am now q h]; simp
    | some t0 =>
        by_cases hlt : now - t0 < cooldownFor am q
        · rw [shouldSend_suppress am now q t0 h hlt]; simp
        · rw [shouldSend_elapsed am now q t0 h hlt]; simp
  refine ⟨?_, ?_, ?_, ?_, ⟨rfl, rfl⟩, ?_⟩
  · intro hsend
    rw [hsplit q, hsend]
    simp [Function.update_same]
  · intro hsend
    rw [hsplit q, hsend]
    simp [Function.update_same]
  · intro hne
    constructor
    · rw [hsplit P]
      exact Function.update_noteq (Ne.symm hne) _ _
    · cases h : am.sentAlerts q with
      | none =>
          rw [shouldSend_first am now q h]
          simp only [Function.update_apply]
          simp [Ne.symm hne]
      | some t0 =>
          by_cases hlt : now - t0 < cooldownFor am q
          · rw [shouldSend_suppress am now q t0 h hlt]
          · rw [shouldSend_elapsed am now q t0 h hlt]
            simp only [Function.update_apply]
            simp [Ne.symm hne]
  · intro t h1 hle t' h2
    rcases sentAlerts_after_step am now q P with hcase | hcase
    · rw [hcase, h1] at h2
      cases h2
      exact le_refl t
    · rw [hcase] at h2
      cases h2
      exact hle
  · intro d pc calls hsorted
    apply trace_mono P calls (NewAlertManager d pc) _ hsorted
    intro c _ p t hpt
    simp [NewAlertManager] at hpt

/-- Witness for C4: concrete calls on patterns "a" and "b" with
non-decreasing times. -/
theorem C4_alert_state_invariants_witness :
    ((ShouldSendAlert (NewAlertManager 10 (fun _ => none)) 0 "a").2.suppressionCounts "b" =
        (NewAlertManager 10 (fun _ => none)).suppressionCounts "b" ∧
     (ShouldSendAlert (NewAlertManager 10 (fun _ => none)) 0 "a").2.sentAlerts "b" =
        (NewAlertManager 10 (fun _ => none)).sentAlerts "b") ∧
    (stateTrace (NewAlertManager 10 (fun _ => none)) [(0, "a"), (3, "a"), (7, "b")]).Chain'
      (StepMono "a") := by
  have h := C4_alert_state_invariants (NewAlertManager 10 (fun _ => none)) 0 "a" "b"
  refine ⟨h.2.2.1 (by decide), ?_⟩
  have h' := C4_alert_state_invariants (NewAlertManager 10 (fun _ => none)) 0 "b" "a"
  exact h'.2.2.2.2.2 10 (fun _ => none) [(0, "a"), (3, "a"), (7, "b")] (by simp)

/-! ## The `timeoutMinutes = 0` cooldown (claim C3) -/

/-- Counterexample to C3 as stated: with `timeoutMinutes = 0` the cooldown
is `24 h * 365 * 100` = 3153600000000000000 ns, a finite duration: after a
send at time 0, a match that far in the future (within a finite simulated
horizon) fires again. -/
theorem C3_counterexample :
    (ShouldSendAlert
        (ShouldSendAlert
          (NewAlertManager 0 (buildPatternCooldowns [⟨"p", 0⟩])) 0 "p").2
        3153600000000000000 "p").1.1 = true := by decide

/-- Claim C3 amended: a rule with `timeoutMinutes = 0` gets the effective
cooldown 3153600000000000000 ns (100 × 365 days) — extremely large, not
"always alert" — and after a send for the key, no sequence of matches
each strictly within that duration of the send ever sends again. -/
theorem C3_zero_timeout_never_within_cooldown (P : String) (am : AlertManager)
    (t0 : Int) (ts : List Int)
    (h1 : am.sentAlerts P = some t0)
    (h2 : cooldownFor am P = 3153600000000000000)
    (h3 : ∀ s ∈ ts, s - t0 < 3153600000000000000) :
    (∀ pc : PatternConfig, pc.TimeoutMinutes = 0 →
        effectiveTimeout pc = 3153600000000000000) ∧
    countSends am (ts.map (fun s => (s, P))) = 0 ∧
    (∀ r ∈ sendResults am (ts.map (fun s => (s, P))), r.1 = false) := by
  obtain ⟨hres, _⟩ := suppressedRun P t0 _ ts am h1 h2 h3
  refine ⟨?_, ?_, ?_⟩
  · intro pc hpc
    simp only [effectiveTimeout, hpc, if_pos]
    norm_num [hourNs]
  · rw [countSends, hres]
    simp [List.countP_eq_zero]
  · rw [hres]
    intro r hr
    simp at hr
    obtain ⟨i, _, hi⟩ := hr
    rw [← hi]

/-- Witness for the amended C3: the pattern "p" with `timeoutMinutes = 0`,
alert sent at time 0, matches at one second and one hour later (and at a
time 90 years later): none sends. -/
theorem C3_zero_timeout_never_within_cooldown_witness :
    countSends
      (ShouldSendAlert
        (NewAlertManager 0 (buildPatternCooldowns [⟨"p", 0⟩])) 0 "p").2
      (([1000000000, 3600000000000, 2840184000000000000] : List Int).map
        (fun s => (s, "p"))) = 0 := by
  have h := C3_zero_timeout_never_within_cooldown "p"
    (ShouldSendAlert (NewAlertManager 0 (buildPatternCooldowns [⟨"p", 0⟩])) 0 "p").2
    0 [1000000000, 3600000000000, 2840184000000000000]
    (by decide) (by decide) (by decide)
  exact h.2.1

/-! ## Duplicate pattern texts share state and cooldown (claim C10) -/

/-- Folding the cooldown-map construction over rules none of which carry
the pattern text `s` leaves the value at `s` untouched. -/
theorem buildAux_skip (l : List PatternConfig) (m : String → Option Int) (s : String)
    (h : ∀ pc ∈ l, pc.Pattern ≠ s) :
    (l.foldl (fun (acc : String → Option Int) pc =>
        Function.update acc pc.Pattern (some (effectiveTimeout pc))) m) s = m s := by
  induction l generalizing m with
  | nil => rfl
  | cons pc rest ih =>
      rw [List.foldl_cons, ih _ (fun q hq => h q (by simp [hq]))]
      exact Function.update_noteq (Ne.symm (h pc (by simp))) _ _

/-- Claim C10: two rules with identical pattern text share one cooldown
map entry — the value of the last rule in the list with that text — and
one alert-state entry: `ShouldSendAlert` is keyed by the text alone, so a
match via either rule reads and updates the same `lastSentAt` and
`suppressedCount`; in particular a match via the second rule within the
cooldown of a send recorded via the first is suppressed. -/
theorem C10_duplicate_patterns_share_state (ps qs : List PatternConfig)
    (r : PatternConfig) (s : String)
    (hr : r.Pattern = s) (hq : ∀ q ∈ qs, q.Pattern ≠ s) :
    buildPatternCooldowns (ps ++ r :: qs) s = some (effectiveTimeout r) ∧
    (∀ (am : AlertManager) (t : Int) (r1 r2 : PatternConfig), r1.Pattern = r2.Pattern →
        ShouldSendAlert am t r1.Pattern = ShouldSendAlert am t r2.Pattern) ∧
    (∀ (am : AlertManager) (t0 t1 : Int) (r2 : PatternConfig),
        r2.Pattern = s → am.sentAlerts s = some t0 → t1 - t0 < cooldownFor am s →
        (ShouldSendAlert am t1 r2.Pattern).1.1 = false) := by
  refine ⟨?_, ?_, ?_⟩
  · rw [buildPatternCooldowns, List.foldl_append, List.foldl_cons]
    rw [buildAux_skip qs _ s hq]
    rw [← hr]
    exact Function.update_same _ _ _
  · intro am t r1 r2 h12
    rw [h12]
  · intro am t0 t1 r2 hr2 hsent hlt
    rw [hr2, shouldSend_suppress am t1 s t0 hsent hlt]

/-- Witness for C10: two rules with text "dup" (timeouts 5 then 7
minutes) and a later unrelated rule: the map holds the later value,
7 minutes = 420000000000 ns. -/
theorem C10_duplicate_patterns_share_state_witness :
    buildPatternCooldowns [⟨"dup", 5⟩, ⟨"dup", 7⟩, ⟨"other", 3⟩] "dup" =
      some (7 * minuteNs) := by
  have h := C10_duplicate_patterns_share_state [⟨"dup", 5⟩] [⟨"other", 3⟩] ⟨"dup", 7⟩ "dup"
    rfl (by decide)
  exact h.1.trans (by decide)

/-! ## Classifier (claim C7) -/

/-- `searchLog` reports a match exactly when some pattern matches. -/
theorem searchLog_fst_true_iff (log : String) (patterns : List Regexp) :
    (searchLog log patterns).1 = true ↔ ∃ p ∈ patterns, p.MatchString log = true := by
  induction patterns with
  | nil => simp [searchLog]
  | cons p rest ih =>
      by_cases hp : p.MatchString log
      · simp [searchLog, hp]
      · simp only [searchLog, hp, Bool.false_eq_true, if_false, ih, List.mem_cons]
        constructor
        · rintro ⟨q, hq, hm⟩
          exact ⟨q, Or.inr hq, hm⟩
        · rintro ⟨q, hq | hq, hm⟩
          · rw [hq] at hm
            exact absurd hm hp
          · exact ⟨q, hq, hm⟩

/-- The first matching pattern wins: with all earlier patterns failing,
`searchLog` returns `(true, p.source)` for the first that matches. -/
theorem searchLog_first_match (log : String) (pre : List Regexp) (p : Regexp)
    (post : List Regexp)
    (hpre : ∀ q ∈ pre, q.MatchString log = false) (hp : p.MatchString log = true) :
    searchLog log (pre ++ p :: post) = (true, p.source) := by
  induction pre with
  | nil => simp [searchLog, hp]
  | cons q rest ih =>
      have hq : q.MatchString log = false := hpre q (by simp)
      simp only [List.cons_append, searchLog, hq, Bool.false_eq_true, if_false]
      exact ih (fun x hx => hpre x (by simp [hx]))

/-- Claim C7: the classifier returns the first rule in configured order
whose pattern matches the line, and reports "no match" exactly when no
rule matches; a line matching several rules is attributed to the earliest
one. -/
theorem C7_classifier_first_match (log : String) (patterns : List Regexp) :
    ((searchLog log patterns).1 = true ↔ ∃ p ∈ patterns, p.MatchString log = true) ∧
    ((searchLog log patterns).1 = false ↔ ∀ p ∈ patterns, p.MatchString log = false) ∧
    (∀ pre p post, patterns = pre ++ p :: post →
        (∀ q ∈ pre, q.MatchString log = false) → p.MatchString log = true →
        searchLog log patterns = (true, p.source)) := by
  refine ⟨searchLog_fst_true_iff log patterns, ?_, ?_⟩
  · rw [← Bool.not_eq_true, searchLog_fst_true_iff]
    push_neg
    constructor
    · intro h p hp
      have := h p hp
      simpa using this
    · intro h p hp
      simp [h p hp]
  · intro pre p post hpat hpre hp
    rw [hpat]
    exact searchLog_first_match log pre p post hpre hp

/-- Witness for C7: the line "x ERROR y" matches both configured rules;
the classifier reports the first. -/
theorem C7_classifier_first_match_witness :
    searchLog "x ERROR y"
      [⟨"ERROR", fun s => strContains s "ERROR"⟩, ⟨"ERR", fun s => strContains s "ERR"⟩] =
      (true, "ERROR") := by
  have h := (C7_classifier_first_match "x ERROR y"
    [⟨"ERROR", fun s => strContains s "ERROR"⟩, ⟨"ERR", fun s => strContains s "ERR"⟩]).2.2
    [] ⟨"ERROR", fun s => strContains s "ERROR"⟩ [⟨"ERR", fun s => strContains s "ERR"⟩]
    rfl (by simp) (by decide)
  exact h

/-! ## Dispatcher (claims C8, C9) -/

/-- Claim C9: the dispatched payload.  With `http.NewRequest` succeeding,
exactly one request is handed to the transport (whatever the transport
then does): a POST to the webhook URL, `Content-Type: application/json`,
whose body is one JSON object with the single field `text`; the text is
the prefix, a newline and the line, with the `Suppressed N duplicate(s)`
note appended exactly when the reported count is positive. -/
theorem C9_dispatch_payload (env : HttpEnv) (webhookURL msgPref logLine : String)
    (n : Nat) (henv : env.newRequestErr = none) :
    (sendGoogleChatAlert env webhookURL msgPref logLine n).requests =
      [{ method := "POST", url := webhookURL, contentType := some "application/json"
         bodyFields := [("text",
            if n > 0 then
              (msgPref ++ "\n" ++ logLine) ++ "\nSuppressed " ++ toString n ++ " duplicate(s)"
            else msgPref ++ "\n" ++ logLine)] }] := by
  simp only [sendGoogleChatAlert, henv]
  split <;> try split
  all_goals rfl

/-- Witness for C9: suppression count 2, transport returning 200. -/
theorem C9_dispatch_payload_witness :
    (sendGoogleChatAlert ⟨none, fun _ => some 200⟩ "https://x" "p" "l" 2).requests =
      [{ method := "POST", url := "https://x", contentType := some "application/json"
         bodyFields := [("text", "p\nl\nSuppressed 2 duplicate(s)")] }] := by
  rw [C9_dispatch_payload ⟨none, fun _ => some 200⟩ "https://x" "p" "l" 2 rfl]
  decide

/-- Counterexample to C8 as stated: a response status of 300 (not 2xx) is
logged to standard output, not to the diagnostic (stderr) stream. -/
theorem C8_counterexample :
    (sendGoogleChatAlert ⟨none, fun _ => some 300⟩ "u" "p" "l" 0).stderrLines = [] ∧
    (sendGoogleChatAlert ⟨none, fun _ => some 300⟩ "u" "p" "l" 0).stdoutLines =
      ["Alert sent to Google Chat, response status: 300"] := by
  decide

/-- Claim C8 amended: a response status at most 299 is treated as
delivered (silently); a status above 299 is noted on standard output; a
transport failure is logged to the diagnostic stream; in every case the
dispatcher returns normally having attempted at most one request (no
retry), and the outcome of dispatch never influences the alert state, so
a delivery failure cannot prevent the next otherwise-eligible alert. -/
theorem C8_dispatch_failure_swallowed (url pre line : String) (n : Nat)
    (resp : Option Nat) :
    ((resp = none →
        (sendGoogleChatAlert ⟨none, fun _ => resp⟩ url pre line n).stderrLines =
          ["Error sending alert"] ∧
        (sendGoogleChatAlert ⟨none, fun _ => resp⟩ url pre line n).stdoutLines = []) ∧
     (∀ s, resp = some s → 299 < s →
        (sendGoogleChatAlert ⟨none, fun _ => resp⟩ url pre line n).stdoutLines =
          ["Alert sent to Google Chat, response status: " ++ toString s] ∧
        (sendGoogleChatAlert ⟨none, fun _ => resp⟩ url pre line n).stderrLines = []) ∧
     (∀ s, resp = some s → s ≤ 299 →
        (sendGoogleChatAlert ⟨none, fun _ => resp⟩ url pre line n).stdoutLines = [] ∧
        (sendGoogleChatAlert ⟨none, fun _ => resp⟩ url pre line n).stderrLines = [])) ∧
    (∀ env : HttpEnv, (sendGoogleChatAlert env url pre line n).requests.length ≤ 1) ∧
    (∀ (env1 env2 : HttpEnv) (patterns : List Regexp) (am : AlertManager)
        (now : Int) (logLine : String),
        (processLine env1 url pre patterns am now logLine).1 =
        (processLine env2 url pre patterns am now logLine).1) := by
  refine ⟨⟨?_, ?_, ?_⟩, ?_, ?_⟩
  · rintro rfl
    constructor <;> rfl
  · rintro s rfl hs
    constructor
    · simp only [sendGoogleChatAlert]
      rw [if_pos hs]
    · simp only [sendGoogleChatAlert]
      rw [if_pos hs]
  · rintro s rfl hs
    have hns : ¬ 299 < s := by omega
    constructor
    · simp only [sendGoogleChatAlert]
      rw [if_neg hns]
    · simp only [sendGoogleChatAlert]
      rw [if_neg hns]
  · intro env
    simp only [sendGoogleChatAlert]
    split
    · simp
    · split <;> try split
      all_goals simp
  · intro env1 env2 patterns am now logLine
    simp only [processLine]
    split
    · split <;> rfl
    · rfl

/-- Witness for C8 (amended): status 500 goes to stdout only, and the
alert state after a line is the same whether the transport fails or
succeeds. -/
theorem C8_dispatch_failure_swallowed_witness :
    (sendGoogleChatAlert ⟨none, fun _ => some 500⟩ "u" "p" "l" 0).stdoutLines =
      ["Alert sent to Google Chat, response status: 500"] ∧
    (processLine ⟨none, fun _ => none⟩ "u" "p" [⟨"E", fun s => strContains s "E"⟩]
        (NewAlertManager 10 (fun _ => none)) 0 "E!").1 =
    (processLine ⟨none, fun _ => some 200⟩ "u" "p" [⟨"E", fun s => strContains s "E"⟩]
        (NewAlertManager 10 (fun _ => none)) 0 "E!").1 := by
  have h := C8_dispatch_failure_swallowed "u" "p" "l" 0 (some 500)
  refine ⟨(h.1.2.1 500 rfl (by omega)).1, ?_⟩
  exact h.2.2 ⟨none, fun _ => none⟩ ⟨none, fun _ => some 200⟩
    [⟨"E", fun s => strContains s "E"⟩] (NewAlertManager 10 (fun _ => none)) 0 "E!"

/-! ## Port negotiation (claims C5, C6) -/

/-- Soundness of the probe loop: a returned port is at least the starting
one, binds, and every port in between does not bind (so it is the least
such port). -/
theorem findAvailablePort_sound (freeBind : Int → Bool) (fuel : Nat) (p q : Int)
    (h : findAvailablePort freeBind fuel p = some q) :
    p ≤ q ∧ freeBind q = true ∧ ∀ r, p ≤ r → r < q → freeBind r = false := by
  induction fuel generalizing p with
  | zero => simp [findAvailablePort] at h
  | succ fuel ih =>
      rw [findAvailablePort] at h
      by_cases hp : freeBind p = true
      · rw [if_pos hp] at h
        injection h with hpq2
        subst hpq2
        exact ⟨le_refl p, hp, fun r h1 h2 => absurd h2 (by omega)⟩
      · rw [if_neg hp] at h
        obtain ⟨h1, h2, h3⟩ := ih (p + 1) h
        refine ⟨by omega, h2, fun r hr1 hr2 => ?_⟩
        by_cases hrp : r = p
        · rw [hrp]
          simpa using hp
        · exact h3 r (by omega) hr2

/-- Completeness of the probe loop: with enough fuel it reaches the least
binding port at or above the start. -/
theorem findAvailablePort_complete (freeBind : Int → Bool) (fuel : Nat) (p q : Int)
    (hpq : p ≤ q) (hfree : freeBind q = true)
    (hmin : ∀ r, p ≤ r → r < q → freeBind r = false)
    (hfuel : (q - p).toNat < fuel) :
    findAvailablePort freeBind fuel p = some q := by
  induction fuel generalizing p with
  | zero => omega
  | succ fuel ih =>
      rw [findAvailablePort]
      by_cases hp : freeBind p = true
      · have hpeq : p = q := by
          by_contra hne
          have hlt : p < q := by omega
          rw [hmin p (le_refl p) hlt] at hp
          exact Bool.false_ne_true hp
        rw [if_pos hp, hpeq]
      · rw [if_neg hp]
        have hplt : p < q := by
          by_contra hge
          have : p = q := by omega
          rw [this] at hp
          exact hp hfree
        exact ih (p + 1) (by omega) (fun r h1 h2 => hmin r (by omega) h2) (by omega)

/-- `mapOption` is pointwise: on success the output has the input's
length and the i-th output comes from the i-th input (order preserved). -/
theorem mapOption_pointwise (f : α → Option β) (l : List α) (out : List β)
    (h : mapOption f l = some out) :
    out.length = l.length ∧
    ∀ i (hi : i < l.length) (hi' : i < out.length),
        f (l.get ⟨i, hi⟩) = some (out.get ⟨i, hi'⟩) := by
  induction l generalizing out with
  | nil =>
      rw [mapOption] at h
      cases h
      exact ⟨rfl, fun i hi => by simp at hi⟩
  | cons a rest ih =>
      rw [mapOption] at h
      cases hfa : f a with
      | none => rw [hfa] at h; cases h
      | some b =>
          rw [hfa] at h
          cases hrest : mapOption f rest with
          | none => rw [hrest] at h; cases h
          | some bs =>
              rw [hrest] at h
              cases h
              obtain ⟨hlen, hpt⟩ := ih bs hrest
              refine ⟨by simp [hlen], fun i hi hi' => ?_⟩
              cases i with
              | zero => simpa using hfa
              | succ j =>
                  simp only [List.length_cons] at hi hi'
                  exact hpt j (by omega) (by omega)

/-- A failing element makes the whole `mapOption` fail (the Go loop
returns the error). -/
theorem mapOption_fails (f : α → Option β) (l : List α) (a : α)
    (ha : a ∈ l) (hfa : f a = none) : mapOption f l = none := by
  induction l with
  | nil => simp at ha
  | cons b rest ih =>
      rw [mapOption]
      cases hfb : f b with
      | none => rfl
      | some c =>
          rcases List.mem_cons.mp ha with hab | harest
          · rw [hab] at hfa
            rw [hfa] at hfb
            cases hfb
          · rw [ih harest]

/-- Lookup after replacing the entries under `k` (the map-assignment
branch where the key exists). -/
theorem getValue_replace (config : YamlDoc) (k : String) (v : YamlValue)
    (h : config.any (fun kv => kv.1 = k) = true) :
    getValue (config.map (fun kv => if kv.1 = k then (kv.1, v) else kv)) k = some v := by
  induction config with
  | nil => simp at h
  | cons kv rest ih =>
      by_cases hk : kv.1 = k
      · simp [getValue, hk]
      · have h' : rest.any (fun kv => kv.1 = k) = true := by
          simpa [hk] using h
        simpa [getValue, hk] using ih h'

/-- `mapSet` makes `getValue` at the assigned key return the new value. -/
theorem getValue_mapSet_same (config : YamlDoc) (k : String) (v : YamlValue) :
    getValue (mapSet config k v) k = some v := by
  rw [mapSet]
  by_cases h : config.any (fun kv => kv.1 = k) = true
  · rw [if_pos h]
    exact getValue_replace config k v h
  · rw [if_neg h]
    induction config with
    | nil => simp [getValue]
    | cons kv rest ih =>
        have hk : ¬ kv.1 = k := by
          intro hkk
          exact h (by simp [List.any_cons, hkk])
        have h' : ¬ rest.any (fun kv => kv.1 = k) = true := by
          intro hr
          exact h (by simp [List.any_cons, hr])
        simpa [getValue, hk] using ih h'

/-- `mapSet` leaves lookups at other keys unchanged. -/
theorem getValue_mapSet_other (config : YamlDoc) (k k' : String) (v : YamlValue)
    (hne : k' ≠ k) :
    getValue (mapSet config k v) k' = getValue config k' := by
  have hkk' : ¬ k = k' := fun hh => hne hh.symm
  rw [mapSet]
  by_cases h : config.any (fun kv => kv.1 = k) = true
  · rw [if_pos h]
    clear h
    induction config with
    | nil => rfl
    | cons kv rest ih =>
        by_cases hk : kv.1 = k
        · simp [getValue, hk, hkk', ih]
        · by_cases hk' : kv.1 = k'
          · simp [getValue, hk, hk', hne]
          · simpa [getValue, hk, hk'] using ih
  · rw [if_neg h]
    clear h
    induction config with
    | nil => simp [getValue, hkk']
    | cons kv rest ih =>
        by_cases hk' : kv.1 = k'
        · simp [getValue, hk']
        · simpa [getValue, hk'] using ih

/-- A failing key anywhere in the worklist makes `updateConfig` fail
(whatever the document). -/
theorem updateConfig_fails (freeBind : Int → Bool) (fuel : Nat)
    (ports : List (String × String)) (k : String) (pl : String)
    (hmem : (k, pl) ∈ ports) (hfail : negotiatePorts freeBind fuel pl = none) :
    ∀ config : YamlDoc, updateConfig freeBind fuel config ports = none := by
  induction ports with
  | nil => simp at hmem
  | cons kp rest ih =>
      intro config
      obtain ⟨k0, pl0⟩ := kp
      rw [updateConfig]
      cases hneg : negotiatePorts freeBind fuel pl0 with
      | none => rfl
      | some out0 =>
          rcases List.mem_cons.mp hmem with hhead | htail
          · cases hhead
            rw [hneg] at hfail
            cases hfail
          · exact ih htail _

/-- On success, `updateConfig` rewrites exactly the listed keys: keys off
the worklist keep their lookup, and (for a duplicate-free worklist) each
listed key maps to its own negotiated, order-preserving list. -/
theorem updateConfig_spec (freeBind : Int → Bool) (fuel : Nat)
    (ports : List (String × String)) (config cfg' : YamlDoc)
    (h : updateConfig freeBind fuel config ports = some cfg') :
    (∀ k, k ∉ ports.map Prod.fst → getValue cfg' k = getValue config k) ∧
    ((ports.map Prod.fst).Nodup →
      ∀ k pl, (k, pl) ∈ ports →
        ∃ out, negotiatePorts freeBind fuel pl = some out ∧
          getValue cfg' k = some (YamlValue.str out)) := by
  induction ports generalizing config with
  | nil =>
      rw [updateConfig] at h
      cases h
      exact ⟨fun k _ => rfl, fun _ k pl hmem => by simp at hmem⟩
  | cons kp rest ih =>
      obtain ⟨k0, pl0⟩ := kp
      rw [updateConfig] at h
      cases hneg : negotiatePorts freeBind fuel pl0 with
      | none => rw [hneg] at h; cases h
      | some out0 =>
          rw [hneg] at h
          obtain ⟨ihA, ihB⟩ := ih _ h
          constructor
          · intro k hk
            simp only [List.map_cons, List.mem_cons] at hk
            push_neg at hk
            rw [ihA k hk.2]
            exact getValue_mapSet_other config k0 k (YamlValue.str out0) hk.1
          · intro hnodup k pl hmem
            simp only [List.map_cons, List.nodup_cons] at hnodup
            rcases List.mem_cons.mp hmem with hhead | htail
            · cases hhead
              refine ⟨out0, hneg, ?_⟩
              rw [ihA k0 hnodup.1]
              exact getValue_mapSet_same config k0 (YamlValue.str out0)
            · exact ihB hnodup.2 k pl htail

/-- Claim C5: `findAvailablePort` returns exactly the smallest port at or
above the requested one on which a bind succeeds (in particular, a port
strictly greater when the requested one is held); within a key the listed
ports are negotiated in list order and re-emitted in the same order; and
on a successful update each key of a duplicate-free worklist carries the
negotiation of its own list, independent of the other keys. -/
theorem C5_port_negotiation (freeBind : Int → Bool) (fuel : Nat) :
    (∀ p q, findAvailablePort freeBind fuel p = some q →
        p ≤ q ∧ freeBind q = true ∧ ∀ r, p ≤ r → r < q → freeBind r = false) ∧
    (∀ p q, p ≤ q → freeBind q = true → (∀ r, p ≤ r → r < q → freeBind r = false) →
        (q - p).toNat < fuel → findAvailablePort freeBind fuel p = some q) ∧
    (∀ p q, freeBind p = false → findAvailablePort freeBind fuel p = some q → p < q) ∧
    (∀ portList out, negotiatePorts freeBind fuel portList = some out →
        ∃ ns, mapOption (negotiateOne freeBind fuel) (splitOnChar ',' portList) = some ns ∧
          out = joinWith ", " ns ∧
          ns.length = (splitOnChar ',' portList).length ∧
          ∀ i (hi : i < (splitOnChar ',' portList).length) (hi' : i < ns.length),
            negotiateOne freeBind fuel ((splitOnChar ',' portList).get ⟨i, hi⟩) =
              some (ns.get ⟨i, hi'⟩)) ∧
    (∀ (ports : List (String × String)) (config cfg' : YamlDoc),
        updateConfig freeBind fuel config ports = some cfg' →
        (ports.map Prod.fst).Nodup →
        ∀ k pl, (k, pl) ∈ ports →
          ∃ out, negotiatePorts freeBind fuel pl = some out ∧
            getValue cfg' k = some (YamlValue.str out)) := by
  refine ⟨findAvailablePort_sound freeBind fuel, findAvailablePort_complete freeBind fuel,
    ?_, ?_, ?_⟩
  · intro p q hheld h
    obtain ⟨h1, h2, _⟩ := findAvailablePort_sound freeBind fuel p q h
    have : p ≠ q := by
      intro hpq
      rw [hpq, h2] at hheld
      cases hheld
    omega
  · intro portList out h
    rw [negotiatePorts] at h
    cases hmap : mapOption (negotiateOne freeBind fuel) (splitOnChar ',' portList) with
    | none => rw [hmap] at h; cases h
    | some ns =>
        rw [hmap] at h
        injection h with hout
        obtain ⟨hlen, hpt⟩ := mapOption_pointwise _ _ _ hmap
        exact ⟨ns, rfl, hout.symm, hlen, hpt⟩
  · intro ports config cfg' h hnodup k pl hmem
    exact (updateConfig_spec freeBind fuel ports config cfg' h).2 hnodup k pl hmem

/-- Witness for C5: ports 8080 and 8081 are held (binds succeed only from
8082 up); the request 8080 negotiates to 8082, and for the key
`rpc_ports` with list "8080,8085" the updated document carries its own
negotiated list. -/
theorem C5_port_negotiation_witness :
    findAvailablePort (fun p => decide (8082 ≤ p)) 10 8080 = some 8082 ∧
    (∃ out, negotiatePorts (fun p => decide (8082 ≤ p)) 10 "8080,8085" = some out ∧
        getValue [("rpc_ports", YamlValue.str "8082, 8085"), ("datadir", YamlValue.other 0)]
          "rpc_ports" = some (YamlValue.str out)) := by
  have hthm := C5_port_negotiation (fun p => decide (8082 ≤ p)) 10
  constructor
  · exact hthm.2.1 8080 8082 (by decide) (by decide)
      (fun r h1 h2 => by rw [decide_eq_false_iff_not]; omega) (by decide)
  · exact hthm.2.2.2.2 [("rpc_ports", "8080,8085")]
      [("rpc_ports", YamlValue.str "8080,8085"), ("datadir", YamlValue.other 0)]
      [("rpc_ports", YamlValue.str "8082, 8085"), ("datadir", YamlValue.other 0)]
      (by decide) (by decide) "rpc_ports" "8080,8085" (by decide)

/-- Counterexample to C6 as stated: the key "xport" contains "port" but
its string value "abc" is not a comma-separated list of integers; it is
nevertheless selected for rewriting, and the port phase then fails (so
`main` aborts through `log.Fatalf`) instead of passing the key through. -/
theorem C6_counterexample :
    extractPorts [("xport", YamlValue.str "abc")] = [("xport", "abc")] ∧
    portPhase (fun _ => true) 5 [("xport", YamlValue.str "abc")] = none := by
  decide

/-- Claim C6 amended: exactly the top-level keys whose name contains
"port" and whose value is a string are selected for rewriting (the string
content is not inspected during selection); keys off that selection pass
through with their lookup unchanged; and a selected key whose string does
not negotiate — e.g. is not a comma-separated list of integers — makes
the whole port phase fail, which aborts the run. -/
theorem C6_port_key_selection (config : YamlDoc) (freeBind : Int → Bool) (fuel : Nat) :
    (∀ k s, (k, s) ∈ extractPorts config ↔
        ((k, YamlValue.str s) ∈ config ∧
          (strContains k "port" || strContains k "ports") = true)) ∧
    (∀ cfg', updateConfig freeBind fuel config (extractPorts config) = some cfg' →
        ∀ k, k ∉ (extractPorts config).map Prod.fst →
          getValue cfg' k = getValue config k) ∧
    (∀ k s, (k, s) ∈ extractPorts config → negotiatePorts freeBind fuel s = none →
        portPhase freeBind fuel config = none) := by
  refine ⟨?_, ?_, ?_⟩
  · intro k s
    rw [extractPorts, List.mem_filterMap]
    constructor
    · rintro ⟨⟨k0, v0⟩, hmem, hf⟩
      dsimp only at hf
      by_cases hc : (strContains k0 "port" || strContains k0 "ports") = true
      · rw [if_pos hc] at hf
        cases v0 with
        | str s0 =>
            simp only [Option.some.injEq, Prod.mk.injEq] at hf
            obtain ⟨hk, hs⟩ := hf
            subst hk
            subst hs
            exact ⟨hmem, hc⟩
        | other t => simp at hf
      · rw [if_neg hc] at hf
        simp at hf
    · rintro ⟨hmem, hc⟩
      refine ⟨(k, YamlValue.str s), hmem, ?_⟩
      simp [hc]
  · intro cfg' h k hk
    exact (updateConfig_spec freeBind fuel (extractPorts config) config cfg' h).1 k hk
  · intro k s hmem hfail
    rw [portPhase]
    exact updateConfig_fails freeBind fuel (extractPorts config) k s hmem hfail config

/-- Witness for the amended C6: of three keys, only the string-valued
ones whose name contains "port" are selected, and the non-integer one
makes the port phase fail. -/
theorem C6_port_key_selection_witness :
    ("p_ports", "x,1") ∈
      extractPorts [("p_ports", YamlValue.str "x,1"), ("name", YamlValue.str "n"),
        ("static_port", YamlValue.other 0)] ∧
    portPhase (fun _ => true) 5
      [("p_ports", YamlValue.str "x,1"), ("name", YamlValue.str "n"),
        ("static_port", YamlValue.other 0)] = none := by
  have h := C6_port_key_selection
    [("p_ports", YamlValue.str "x,1"), ("name", YamlValue.str "n"),
      ("static_port", YamlValue.other 0)] (fun _ => true) 5
  exact ⟨(h.1 "p_ports" "x,1").mpr ⟨by decide, by decide⟩,
    h.2.2 "p_ports" "x,1" (by decide) (by decide)⟩

/-! ## Termination paths and cleanup of the temporary file (claim C2) -/

/-- Claim C2 fails on the code: the removal of the temporary rewritten
configuration file is a `defer`, but every failure path exits through
`log.Fatalf`, i.e. `os.Exit(1)`, which does not run deferred functions.
So on child-spawn failure and on non-zero child exit the file is NOT
removed; it is removed only on the normal path. -/
theorem C2_cleanup_skipped_on_fatal_paths :
    (runChildPhase ⟨true, true, true, false, false, true⟩).tempFileRemoved = false ∧
    (runChildPhase ⟨true, true, true, false, false, true⟩).exitKind =
      ExitKind.fatal "Error starting cdk-erigon" ∧
    (runChildPhase ⟨true, true, true, true, false, false⟩).tempFileRemoved = false ∧
    (runChildPhase ⟨true, true, true, true, false, false⟩).exitKind =
      ExitKind.fatal "cdk-erigon finished with error" ∧
    (runChildPhase ⟨true, true, true, true, false, true⟩).tempFileRemoved = true ∧
    (runChildPhase ⟨true, true, true, true, false, true⟩).exitKind = ExitKind.normal := by
  decide

example : (ShouldSendAlert (NewAlertManager 5 (fun _ => none)) 0 "a").1 = (true, 0) := by rfl

example :
    (ShouldSendAlert (runCalls (NewAlertManager 5 (fun _ => none)) [(0, "a")]) 3 "a").1 =
      (false, 1) := by rfl

example : splitOnChar ',' "80, 81" = ["80", " 81"] := by rfl

example : Atoi (TrimSpace " 81") = some 81 := by rfl

example : strContains "xport" "port" = true := by rfl
